import Mathlib

set_option maxRecDepth 8192

/-!
Shallow embedding of the Bank Nifty OI dashboard (src/bnfdeshbord.py).

Conventions of the embedding:
* Python floats are modelled as exact rationals, represented by the pair type
  `Frac` (numerator, positive denominator, kept normalized by `mkFrac`); every
  value the claims touch (0, 20, tick prices) is exactly representable, so
  float rounding plays no role.
* Python dicts keyed by instrument symbol are association lists in registry order;
  `dict.get(k, default)` becomes `find?` plus `getD`.
* The pandas `history_df` becomes `HistoryTable`: a fixed column list plus a list
  of (timestamp, sparse row) pairs in insertion order.
-/

/-! ### Character-level helpers (for `"FUT" in symbol` and the regex) -/

/-- Test whether the first list is an initial segment of the second. -/
def chPre : List Char → List Char → Bool
  | [], _ => true
  | _ :: _, [] => false
  | a :: as, b :: bs => decide (a = b) && chPre as bs

/-- Test whether `needle` occurs as a contiguous run inside the second list.
Models Python `needle in haystack` on strings. -/
def chSub (needle : List Char) : List Char → Bool
  | [] => needle.isEmpty
  | b :: bs => chPre needle (b :: bs) || chSub needle bs

/-- Python `"FUT" in symbol` (src line 236). -/
def hasFUT (s : String) : Bool := chSub "FUT".data s.data

/-! ### SymbolRegistry (src lines 99-103) -/

/-- Python `range(59000, 61001, 100)`: strikes 59000, 59100, ..., 61000. -/
def STRIKE_RANGE : List Nat := (List.range 21).map (fun i => 59000 + 100 * i)

/-- The `EXPIRY_PREFIX` constant of the source (src line 100). -/
def expiryTag : String := "BANKNIFTY27JAN26"

/-- Python list comprehension: strike outer loop, option type inner loop
(src line 102). -/
def ALL_OPTION_SYMBOLS : List String :=
  STRIKE_RANGE.flatMap (fun strike =>
    [expiryTag ++ toString strike ++ "CE", expiryTag ++ toString strike ++ "PE"])

/-- Python `ALL_OPTION_SYMBOLS + [f"{EXPIRY_PREFIX}FUT"]` (src line 103). -/
def SYMBOLS_TO_MONITOR : List String := ALL_OPTION_SYMBOLS ++ [expiryTag ++ "FUT"]

/-- The fixed column set of `history_df` (src lines 125/127):
`[f"{s} {t}" for s in STRIKE_RANGE for t in ["ce", "pe"]]`. -/
def HISTORY_COLUMNS : List String :=
  STRIKE_RANGE.flatMap (fun s => [toString s ++ " ce", toString s ++ " pe"])

/-! ### The regex `\d{2}[A-Z]{3}\d{2}(\d+)(CE|PE)$` (src lines 21-25)

`re.search` looks for the leftmost start position at which the pattern matches;
`$` anchors the match at the end of the string.  After the seven fixed-class
characters, the greedy `(\d+)` takes the maximal digit run; since `CE`/`PE`
start with a non-digit, backtracking can never help, so the remainder after the
digit run must be exactly `CE` or `PE` at the end of the string.  The symbols
here are ASCII, where Python's `\d` and `[A-Z]` agree with `Char.isDigit` and
`Char.isUpper`. -/

/-- Attempt the anchored pattern at the head of the list; returns the two
capture groups (digit run, `CE`/`PE`). -/
def matchTail : List Char → Option (List Char × List Char)
  | d1 :: d2 :: a1 :: a2 :: a3 :: d3 :: d4 :: rest =>
    if d1.isDigit && d2.isDigit && a1.isUpper && a2.isUpper && a3.isUpper
        && d3.isDigit && d4.isDigit then
      let digits := rest.takeWhile Char.isDigit
      let after := rest.dropWhile Char.isDigit
      if !digits.isEmpty && (decide (after = ['C', 'E']) || decide (after = ['P', 'E'])) then
        some (digits, after)
      else none
    else none
  | _ => none

/-- Leftmost search: try each start position in turn. -/
def reSearch : List Char → Option (List Char × List Char)
  | [] => none
  | c :: rest =>
    match matchTail (c :: rest) with
    | some r => some r
    | none => reSearch rest

/-- The source's `extract_strike_and_type` (src lines 21-25): returns
`f"{strike} {ce|pe}"` on a match, `None` otherwise. -/
def extract_strike_and_type (symbol : String) : Option String :=
  match reSearch symbol.data with
  | some (g1, g2) => some (String.mk g1 ++ " " ++ String.mk (g2.map Char.toLower))
  | none => none

/-! ### Exact rationals

Python float values are modelled exactly.  `Frac` is a numerator/denominator
pair; `mkFrac` normalizes (positive denominator, reduced by the gcd), and every
operation goes through it, so the values the claims compare are in canonical
form.  Divisions below are exact (the gcd divides both arguments), hence
`Int.ediv` agrees with mathematical division. -/

structure Frac where
  num : Int
  den : Int
deriving DecidableEq

/-- Normalized fraction `n / d`: positive denominator, reduced by the gcd.
`d = 0` cannot arise from the program (the division is guarded); it is mapped
to 0 to keep the function total. -/
def mkFrac (n d : Int) : Frac :=
  if d = 0 then ⟨0, 1⟩
  else
    let g : Int := Int.gcd n d
    if d < 0 then ⟨-(n / g), -(d / g)⟩
    else ⟨n / g, d / g⟩

def Frac.ofInt (n : Int) : Frac := ⟨n, 1⟩

def Frac.sub (a b : Frac) : Frac := mkFrac (a.num * b.den - b.num * a.den) (a.den * b.den)

def Frac.div (a b : Frac) : Frac := mkFrac (a.num * b.den) (a.den * b.num)

def Frac.mul (a b : Frac) : Frac := mkFrac (a.num * b.num) (a.den * b.den)

/-! ### Percentage formatting: Python `f"{x:.2f}%"` (src line 258)

Python formats with round-half-even.  On the rational model this is exact; at
every value the claims evaluate (0 and 20) the binary float and the rational
agree, so the formatted strings coincide. -/

/-- Round to nearest integer, ties to even (Python's float formatting rule).
For `q.den > 0`, `f` is the floor and `rnum / q.den` the fractional part. -/
def roundHalfEven (q : Frac) : Int :=
  let f := q.num.fdiv q.den
  let rnum := q.num - f * q.den
  if 2 * rnum < q.den then f
  else if q.den < 2 * rnum then f + 1
  else if f % 2 = 0 then f else f + 1

/-- Python `f"{q:.2f}%"`: round `q` to hundredths and print with exactly two decimals
and a trailing percent sign. -/
def formatPercent2 (q : Frac) : String :=
  let c : Int := roundHalfEven (q.mul (Frac.ofInt 100))
  let sign : String := if c < 0 then "-" else ""
  let n : Nat := c.natAbs
  let ip : Nat := n / 100
  let fp : Nat := n % 100
  sign ++ toString ip ++ "." ++ (if fp < 10 then "0" else "") ++ toString fp ++ "%"

/-- The RoC computation of one symbol (src lines 252-254):
`oi_roc = 0.0; if past_oi > 0: oi_roc = ((live_oi - past_oi) / past_oi) * 100`. -/
def computeRoc (live_oi past_oi : Int) : Frac :=
  if past_oi > 0 then
    (((Frac.ofInt live_oi).sub (Frac.ofInt past_oi)).div (Frac.ofInt past_oi)).mul
      (Frac.ofInt 100)
  else Frac.ofInt 0

/-! ### Data model: live store, history table, session state -/

/-- The `history_df` table: fixed columns plus rows (timestamp index, sparse cells) in
insertion order. -/
structure HistoryTable where
  cols : List String
  rows : List (String × List (String × String))
deriving DecidableEq

/-- The whole mutable session state the claims touch (src lines 109-117). -/
structure SessionState where
  live_data : List (String × Int)
  past_data : List (String × Int)
  future_price : Frac
  history_df : HistoryTable
deriving DecidableEq

/-- Keys of an association list (the instrument set of the live store). -/
def keysOf (m : List (String × Int)) : List String := m.map (fun p => p.1)

/-- Python `symbol in st.session_state.live_data`. -/
def containsKey (m : List (String × Int)) (k : String) : Bool :=
  m.any (fun p => decide (p.1 = k))

/-- Python `live_data[symbol]["oi"] = v` on an existing key. -/
def setOi (m : List (String × Int)) (k : String) (v : Int) : List (String × Int) :=
  m.map (fun p => if p.1 = k then (k, v) else p)

/-- Python `m.get(symbol, {}).get("oi", 0)` (src lines 249-250). -/
def lookupOi (m : List (String × Int)) (k : String) : Int :=
  ((m.find? (fun p => decide (p.1 = k))).map (fun p => p.2)).getD 0

/-- Lookup of a sparse history-row cell by column name. -/
def rowLookup (cells : List (String × String)) (c : String) : Option String :=
  (cells.find? (fun cv => decide (cv.1 = c))).map (fun cv => cv.2)

/-- Python `live_data = {symbol: {"oi": 0} for symbol in SYMBOLS_TO_MONITOR}`
(src line 110). -/
def initLiveData : List (String × Int) := SYMBOLS_TO_MONITOR.map (fun s => (s, 0))

/-- The empty history table with the fixed column set (src lines 125/127). -/
def emptyHistory : HistoryTable := { cols := HISTORY_COLUMNS, rows := [] }

/-- Initial session state (src lines 109-117): all OI zero, `past_data` a copy
of `live_data`, future price 0, empty history. -/
def initState : SessionState :=
  { live_data := initLiveData, past_data := initLiveData
    future_price := Frac.ofInt 0, history_df := emptyHistory }

/-! ### Decoded feed messages and the per-tick consumer update -/

/-- A decoded JSON feed message: the fields the program reads, each possibly
absent. -/
structure RtData where
  messageType : Option String
  instrumentIdentifier : Option String
  openInterest : Option Int
  lastTradePrice : Option Frac
deriving DecidableEq

/-- The OI half of the per-tick update (src lines 230-234): only applied when
`symbol` is a key of `live_data` and the tick carries an `OpenInterest`. -/
def applyOi (s : SessionState) (symbol : String) (oi : Option Int) : SessionState :=
  if containsKey s.live_data symbol then
    match oi with
    | some v => { s with live_data := setOi s.live_data symbol v }
    | none => s
  else s

/-- The future-price half of the per-tick update (src lines 236-240): guarded
only by `"FUT" in symbol` and the presence of `LastTradePrice`, with no
membership check. -/
def applyPrice (s : SessionState) (symbol : String) (price : Option Frac) : SessionState :=
  if hasFUT symbol then
    match price with
    | some p => { s with future_price := p }
    | none => s
  else s

/-- One pass of the queue-drain body (src lines 227-240).  Python's
`if symbol:` is false for `None` and for the empty string. -/
def processTick (s : SessionState) (data : RtData) : SessionState :=
  match data.instrumentIdentifier with
  | none => s
  | some symbol =>
    if symbol = "" then s
    else applyPrice (applyOi s symbol data.openInterest) symbol data.lastTradePrice

/-- Drain a queue of decoded ticks in arrival order (the `while not
data_queue.empty()` loop, src lines 226-240). -/
def drainAll (s : SessionState) (msgs : List RtData) : SessionState :=
  msgs.foldl processTick s

/-! ### FeedListener (src lines 143-160)

`listen_to_gdfl` connects, authenticates, subscribes every monitored symbol,
then decodes each inbound message and forwards `RealtimeResult` ones to the
queue.  The whole body sits under one `try`/`except`, so any decode failure
inside the message loop escapes the loop and ends the connection.  An inbound
message is either decodable (`valid d`) or not (`malformed`, a `json.loads`
failure). -/

inductive InMsg where
  | malformed : InMsg
  | valid : RtData → InMsg
deriving DecidableEq

inductive ListenerPhase where
  | Streaming : ListenerPhase
  | Closed : ListenerPhase
deriving DecidableEq

/-- The `async for message in websocket` loop (src lines 154-157): returns the
ticks forwarded to the queue, paired with `true` when the loop was ended by a
decode exception (caught by the connection-level handler, closing the
connection) rather than by stream exhaustion.  Messages after a malformed one
are never reached. -/
def streamLoop : List InMsg → List RtData × Bool
  | [] => ([], false)
  | InMsg.malformed :: _ => ([], true)
  | InMsg.valid d :: rest =>
    let r := streamLoop rest
    (if d.messageType = some "RealtimeResult" then d :: r.1 else r.1, r.2)

/-- Outcome of one run of `listen_to_gdfl`. -/
structure ListenResult where
  subsSent : List String
  queued : List RtData
  phase : ListenerPhase
deriving DecidableEq

/-- The source's `listen_to_gdfl` (src lines 143-160) given the decoded `Complete` field of
the auth response and the subsequent message stream.  Python's
`if not ...get("Complete"): return` fires when the field is `False` or absent
(src line 149): the function returns before any subscribe is sent.  Either way
the function eventually returns and the `async with` closes the connection. -/
def listen_to_gdfl (complete : Option Bool) (stream : List InMsg) : ListenResult :=
  if complete = some true then
    { subsSent := SYMBOLS_TO_MONITOR, queued := (streamLoop stream).1
      phase := ListenerPhase.Closed }
  else
    { subsSent := [], queued := [], phase := ListenerPhase.Closed }

/-- Decidable check that every stored OI is zero. -/
def allZeroOi (m : List (String × Int)) : Bool := m.all (fun p => decide (p.2 = 0))

/-! ### Startup gating on the credential (src lines 96, 286-293) -/

/-- Python `os.environ.get("API_KEY", "YOUR_API_KEY")` (src line 96). -/
def apiKeyOf (env : Option String) : String := env.getD "YOUR_API_KEY"

structure StartupResult where
  listenerStarted : Bool
  warned : Bool
deriving DecidableEq

/-- Src lines 286-293: the listener thread starts only when
`API_KEY and API_KEY != "YOUR_API_KEY"` (Python truthiness: the empty string is
falsy); otherwise a configuration warning is shown and no thread starts. -/
def startup (env : Option String) : StartupResult :=
  let key := apiKeyOf env
  if key ≠ "" ∧ key ≠ "YOUR_API_KEY" then
    { listenerStarted := true, warned := false }
  else
    { listenerStarted := false, warned := true }

/-! ### Aggregator: the 60s history cycle (src lines 244-264)

Line 245 reassigns `past_data = live_data.copy()` *before* the deltas are read.
The copy is shallow, so for every symbol the `past` OI read at line 250 is the
very value read as `live` at line 249. -/

/-- The `new_row` dict built at src lines 247-258, given the `live_data` at the
cycle boundary.  `past_data` has just been set to (a shallow copy of)
`live_data`, so both lookups read the same store. -/
def cycleRow (live : List (String × Int)) : List (String × String) :=
  ALL_OPTION_SYMBOLS.filterMap (fun symbol =>
    let live_oi := lookupOi live symbol
    let past_oi := lookupOi live symbol
    let oi_roc := computeRoc live_oi past_oi
    (extract_strike_and_type symbol).map (fun col => (col, formatPercent2 oi_roc)))

/-- The body of the 60-second branch (src lines 244-264), with the wall-clock
gate already fired and the cycle timestamp passed in.  `past_data` is
reassigned, the row is built, and (being nonempty) appended to `history_df`. -/
def runCycle (s : SessionState) (ts : String) : SessionState :=
  let past_data := s.live_data
  let new_row := cycleRow s.live_data
  if new_row ≠ [] then
    { s with past_data := past_data
             history_df := { s.history_df with rows := s.history_df.rows ++ [(ts, new_row)] } }
  else { s with past_data := past_data }

/-! ### HistoryStore display window (src lines 216-217)

`draw_dashboard` shows `history_df.sort_index(ascending=False).head(20)`: rows
sorted by timestamp index descending, truncated.  Timestamps are fixed-width
`HH:MM:SS`, so the string order used by the sort is the chronological order. -/

/-- Lexicographic (code-point) order on character lists: the order pandas uses
to sort a string index. -/
def chLt : List Char → List Char → Bool
  | [], [] => false
  | [], _ :: _ => true
  | _ :: _, [] => false
  | a :: as, b :: bs => if a = b then chLt as bs else decide (a < b)

/-- String comparison by code points. -/
def strLt (a b : String) : Bool := chLt a.data b.data

/-- Insert a row into a list sorted by key descending. -/
def insDesc (r : String × List (String × String)) :
    List (String × List (String × String)) → List (String × List (String × String))
  | [] => [r]
  | x :: xs => if strLt x.1 r.1 then r :: x :: xs else x :: insDesc r xs

/-- Sort rows by timestamp key, descending (`sort_index(ascending=False)`). -/
def sortDesc : List (String × List (String × String)) → List (String × List (String × String))
  | [] => []
  | x :: xs => insDesc x (sortDesc xs)

/-- The display window: sort descending by timestamp, keep the first `n` rows
(the source uses `n = 20`).  The stored table is not modified. -/
def windowRows (t : HistoryTable) (n : Nat) : List (String × List (String × String)) :=
  (sortDesc t.rows).take n

/-! ### HistoryStore persistence (src lines 119-127 and 267-274)

`history_df.to_csv(path)` writes a header line (empty index-name field, then
the column names) and one line per row (timestamp, then each column's cell,
empty when the cell was never populated); fields are comma-separated and, for
this table's comma-free percentage strings, unquoted.  `pd.read_csv(path,
index_col=0)` splits each line at commas, takes the first field as the index,
and reads an empty field as a missing cell.  A file is modelled as the list of
its lines, each line a list of characters. -/

/-- Split a line at every comma (`"a,,b"` gives three fields). -/
def splitCommaL (l : List Char) : List (List Char) :=
  match l with
  | [] => [[]]
  | c :: rest =>
    let r := splitCommaL rest
    if c = ',' then [] :: r
    else (c :: r.headD []) :: r.tail

/-- Join fields with commas (left inverse of `splitCommaL` on comma-free
fields). -/
def joinCommaL : List (List Char) → List Char
  | [] => []
  | [x] => x
  | x :: y :: ys => x ++ ',' :: joinCommaL (y :: ys)

/-- One CSV line of a persisted row: the timestamp, then the cells laid out in
column order, an empty field for an unpopulated cell. -/
def renderRow (cols : List String) (r : String × List (String × String)) : List Char :=
  joinCommaL (r.1.data :: cols.map (fun c => ((rowLookup r.2 c).getD "").data))

/-- Pandas `to_csv` (src line 271): header line (empty index-name field, then the
column names), then one line per row. -/
def persistTable (t : HistoryTable) : List (List Char) :=
  joinCommaL ([] :: t.cols.map String.data) :: t.rows.map (renderRow t.cols)

/-- Parse one CSV row line: the first field is the timestamp index, the rest
pair up with the columns, and empty fields are read as missing cells. -/
def parseLine (cols : List String) (line : List Char) : String × List (String × String) :=
  let fs := splitCommaL line
  (String.mk (fs.headD []),
    (cols.zip (fs.tail.map String.mk)).filter (fun cv => decide (cv.2 ≠ "")))

/-- Pandas `read_csv(path, index_col=0)` (src line 121): the first line gives the
columns (dropping the index-name field), each further line one row. -/
def restoreTable (lines : List (List Char)) : HistoryTable :=
  let cols := (splitCommaL (lines.headD [])).tail.map String.mk
  { cols := cols, rows := lines.tail.map (parseLine cols) }

/-- Well-formedness of a history table as the program builds it: column names,
timestamps and cell values are comma-free, every populated cell is a nonempty
string, and every cell's column belongs to the fixed column set. -/
def commaFree (s : String) : Bool := s.data.all (fun c => decide (c ≠ ','))

def tableWF (t : HistoryTable) : Bool :=
  t.cols.all commaFree &&
    t.rows.all (fun r =>
      commaFree r.1 &&
        r.2.all (fun cv =>
          commaFree cv.1 && commaFree cv.2 && decide (cv.2 ≠ "") &&
            decide (cv.1 ∈ t.cols)))

-- sanity anchors for the registry and the regex
example : STRIKE_RANGE.length = 21 := by decide
example : extract_strike_and_type "BANKNIFTY27JAN2659000CE" = some "59000 ce" := by decide
example : extract_strike_and_type "BANKNIFTY27JAN2660100PE" = some "60100 pe" := by decide
example : extract_strike_and_type "BANKNIFTY27JAN26FUT" = none := by decide
example : hasFUT "BANKNIFTY27JAN26FUT" = true := by decide
example : hasFUT "BANKNIFTY27JAN2659000CE" = false := by decide
example : formatPercent2 (Frac.ofInt 0) = "0.00%" := by decide
example : formatPercent2 (Frac.ofInt 20) = "20.00%" := by decide
example : formatPercent2 (computeRoc 1200 1000) = "20.00%" := by decide

/-! ### Helper lemmas about the rational model and the cycle row -/

theorem mkFrac_zero_pos (d : Int) (hd : 0 < d) : mkFrac 0 d = Frac.ofInt 0 := by
  have hd0 : d ≠ 0 := ne_of_gt hd
  have hg : ((Int.gcd 0 d : Nat) : Int) = d := by
    rw [Int.gcd]
    simp [Int.natAbs_of_nonneg hd.le]
  rw [mkFrac, if_neg hd0]
  simp only []
  rw [if_neg (not_lt.mpr hd.le), hg]
  rw [Int.zero_ediv, Int.ediv_self hd0]
  rfl

theorem formatPercent2_zero : formatPercent2 (Frac.ofInt 0) = "0.00%" := by decide

/-- The code's RoC at equal live and past OI is exactly zero. -/
theorem computeRoc_self (x : Int) : computeRoc x x = Frac.ofInt 0 := by
  rw [computeRoc]
  by_cases hx : x > 0
  · rw [if_pos hx]
    have h1 : (Frac.ofInt x).sub (Frac.ofInt x) = Frac.ofInt 0 := by
      rw [Frac.sub]
      simp only [Frac.ofInt, mul_one, sub_self]
      exact mkFrac_zero_pos 1 one_pos
    rw [h1]
    have h2 : (Frac.ofInt 0).div (Frac.ofInt x) = Frac.ofInt 0 := by
      rw [Frac.div]
      simp only [Frac.ofInt, zero_mul, one_mul]
      exact mkFrac_zero_pos x hx
    rw [h2]
    rw [Frac.mul]
    simp only [Frac.ofInt, zero_mul, one_mul]
    exact mkFrac_zero_pos 1 one_pos
  · rw [if_neg hx]

/-- Every cell the cycle builds is the zero percentage. -/
theorem cycleRow_value (live : List (String × Int)) (c v : String)
    (h : (c, v) ∈ cycleRow live) : v = "0.00%" := by
  rw [cycleRow] at h
  obtain ⟨symbol, _, hsym⟩ := List.mem_filterMap.mp h
  obtain ⟨col, _, hcol⟩ := Option.map_eq_some'.mp hsym
  have hv : v = formatPercent2 (computeRoc (lookupOi live symbol) (lookupOi live symbol)) := by
    have := congrArg Prod.snd hcol
    simpa using this.symm
  rw [hv, computeRoc_self, formatPercent2_zero]

/-- The cycle row is never empty: the first registry symbol always produces a
cell. -/
theorem cycleRow_ne_nil (live : List (String × Int)) : cycleRow live ≠ [] := by
  rw [cycleRow]
  rw [show ALL_OPTION_SYMBOLS
      = "BANKNIFTY27JAN2659000CE" :: ALL_OPTION_SYMBOLS.tail from by decide]
  rw [List.filterMap_cons]
  rw [show extract_strike_and_type "BANKNIFTY27JAN2659000CE" = some "59000 ce" from by decide]
  simp

/-! ### C5 -/

/-- C5: if the baseline OI is 0 the guard `past_oi > 0` fails and the RoC is
exactly 0.0 (formatted `"0.00%"`); the division is never executed. -/
theorem claim5_zero_baseline_roc (live_oi : Int) :
    computeRoc live_oi 0 = Frac.ofInt 0 ∧ formatPercent2 (computeRoc live_oi 0) = "0.00%" := by
  have h : computeRoc live_oi 0 = Frac.ofInt 0 := by rw [computeRoc]; simp
  exact ⟨h, by rw [h]; exact formatPercent2_zero⟩

/-! ### C2 -/

/-- C2: the aggregation cycle reassigns `past_data` from the live store
immediately before the delta computation, so live and past OI coincide for
every symbol and every cell of the appended `HistoryRow` is exactly the string
`"0.00%"`. -/
theorem claim2_all_cells_zero (s : SessionState) (ts c v : String)
    (h : (c, v) ∈ cycleRow s.live_data) :
    v = "0.00%" ∧
      (runCycle s ts).history_df.rows
        = s.history_df.rows ++ [(ts, cycleRow s.live_data)] := by
  refine ⟨cycleRow_value s.live_data c v h, ?_⟩
  rw [runCycle]
  simp only [cycleRow_ne_nil s.live_data, if_pos]
  rfl

theorem claim2_witness :
    ("0.00%" : String) = "0.00%" ∧
      (runCycle initState "10:01:00").history_df.rows
        = initState.history_df.rows ++ [("10:01:00", cycleRow initState.live_data)] :=
  claim2_all_cells_zero initState "10:01:00" "59000 ce" "0.00%" (by decide)

/-! ### C1 -/

/-- The failing input of C1: at the previous cycle boundary the baseline OI of
strike 60100 CE was captured as 1000, and the live OI now reads 1200. -/
def c1State : SessionState :=
  { live_data := setOi initLiveData "BANKNIFTY27JAN2660100CE" 1200
    past_data := setOi initLiveData "BANKNIFTY27JAN2660100CE" 1000
    future_price := Frac.ofInt 0, history_df := emptyHistory }

/-- C1 (code bug): with baseline OI 1000 and live OI 1200 at strike 60100 CE,
the cycle appends the cell `"0.00%"` — the baseline held in `past_data` is
overwritten with the live store before the delta is read — while the claimed
formula `(live - past) / past * 100` applied to the stored baseline gives
`"20.00%"`. -/
theorem claim1_roc_code_bug :
    rowLookup (cycleRow c1State.live_data) "60100 ce" = some "0.00%" ∧
      formatPercent2 (computeRoc (lookupOi c1State.live_data "BANKNIFTY27JAN2660100CE")
          (lookupOi c1State.past_data "BANKNIFTY27JAN2660100CE")) = "20.00%" ∧
      ("0.00%" : String) ≠ "20.00%" :=
  ⟨by decide, by decide, by decide⟩

/-! ### C9 -/

/-- C9: with the credential absent from the environment, `API_KEY` falls back
to the sentinel, the listener thread is never started, and the configuration
warning is surfaced. -/
theorem claim9_missing_credential :
    startup none = { listenerStarted := false, warned := true } ∧
      apiKeyOf none = "YOUR_API_KEY" := by
  exact ⟨by decide, rfl⟩

/-! ### C3 -/

/-- A valid tick for the first registry symbol, carrying OI 5. -/
def c3Good : RtData :=
  { messageType := some "RealtimeResult"
    instrumentIdentifier := some "BANKNIFTY27JAN2659000CE"
    openInterest := some 5, lastTradePrice := none }

/-- C3 counterexample: after a malformed message, a following valid tick for
the first registry symbol (OI 5) is never applied; the live store still reads
OI 0 for it, not 5 as the claim predicts. -/
theorem claim3_counterexample :
    lookupOi (drainAll initState
        (streamLoop [InMsg.malformed, InMsg.valid c3Good]).1).live_data
      "BANKNIFTY27JAN2659000CE" = 0 ∧ (0 : Int) ≠ 5 :=
  ⟨by decide, by decide⟩

/-- C3 (amended): a message that cannot be decoded raises out of the message
loop into the connection-level handler: the listener forwards nothing further,
the loop ends with the connection closed, and no later message — valid or not —
is decoded or applied, leaving the consumer state untouched. -/
theorem claim3_malformed_terminates (rest : List InMsg) (s : SessionState) :
    streamLoop (InMsg.malformed :: rest) = ([], true) ∧
      drainAll s (streamLoop (InMsg.malformed :: rest)).1 = s :=
  ⟨rfl, rfl⟩

/-! ### C4 -/

/-- C4: when the auth response's `Complete` field is `false` or absent, the
listener returns before the subscribe loop: it closes having sent zero
subscription messages and queued nothing, so the live store keeps its initial
all-zero values. -/
theorem claim4_auth_failed (complete : Option Bool) (stream : List InMsg)
    (h : complete = some false ∨ complete = none) :
    listen_to_gdfl complete stream
        = { subsSent := [], queued := [], phase := ListenerPhase.Closed } ∧
      drainAll initState (listen_to_gdfl complete stream).queued = initState ∧
      allZeroOi initState.live_data = true := by
  have hc : ¬ complete = some true := by
    rcases h with h | h <;> simp [h]
  have hl : listen_to_gdfl complete stream
      = { subsSent := [], queued := [], phase := ListenerPhase.Closed } := by
    rw [listen_to_gdfl, if_neg hc]
  exact ⟨hl, by rw [hl]; rfl, by decide⟩

theorem claim4_witness :
    listen_to_gdfl (some false) []
        = { subsSent := [], queued := [], phase := ListenerPhase.Closed } ∧
      drainAll initState (listen_to_gdfl (some false) []).queued = initState ∧
      allZeroOi initState.live_data = true :=
  claim4_auth_failed (some false) [] (Or.inl rfl)

/-! ### C8 -/

theorem keysOf_setOi (m : List (String × Int)) (k : String) (v : Int) :
    keysOf (setOi m k v) = keysOf m := by
  rw [keysOf, setOi, keysOf, List.map_map]
  refine List.map_congr_left ?_
  intro p _
  by_cases hp : p.1 = k <;> simp [hp]

theorem applyOi_keys (s : SessionState) (symbol : String) (oi : Option Int) :
    keysOf (applyOi s symbol oi).live_data = keysOf s.live_data := by
  cases oi with
  | some v =>
    rw [applyOi]
    split
    · exact keysOf_setOi s.live_data symbol v
    · rfl
  | none => rw [applyOi]; split <;> rfl

theorem applyOi_none (s : SessionState) (symbol : String) :
    applyOi s symbol none = s := by
  rw [applyOi]; split <;> rfl

theorem applyOi_not_mem (s : SessionState) (symbol : String) (oi : Option Int)
    (h : containsKey s.live_data symbol = false) : applyOi s symbol oi = s := by
  cases oi <;> rw [applyOi] <;> rw [h] <;> simp

theorem applyOi_future (s : SessionState) (symbol : String) (oi : Option Int) :
    (applyOi s symbol oi).future_price = s.future_price := by
  cases oi <;> rw [applyOi] <;> split <;> rfl

theorem applyPrice_live (s : SessionState) (symbol : String) (price : Option Frac) :
    (applyPrice s symbol price).live_data = s.live_data := by
  cases price <;> rw [applyPrice] <;> split <;> rfl

theorem applyPrice_none (s : SessionState) (symbol : String) :
    applyPrice s symbol none = s := by
  rw [applyPrice]; split <;> rfl

/-- C8: the per-tick update is partial and the instrument set never grows: a
tick without `OpenInterest` leaves the live store unchanged, one without
`LastTradePrice` leaves the future price unchanged, and a tick whose symbol is
not a key of the live store leaves the live store unchanged entirely. -/
theorem claim8_partial_update (s : SessionState) (d : RtData) :
    keysOf (processTick s d).live_data = keysOf s.live_data ∧
      (d.openInterest = none → (processTick s d).live_data = s.live_data) ∧
      (d.lastTradePrice = none → (processTick s d).future_price = s.future_price) ∧
      (∀ symbol, d.instrumentIdentifier = some symbol →
        containsKey s.live_data symbol = false →
        (processTick s d).live_data = s.live_data) := by
  cases hid : d.instrumentIdentifier with
  | none => simp [processTick, hid]
  | some symbol =>
    simp only [processTick, hid]
    by_cases hemp : symbol = ""
    · rw [if_pos hemp]
      exact ⟨rfl, fun _ => rfl, fun _ => rfl, fun _ _ _ => rfl⟩
    · rw [if_neg hemp]
      refine ⟨?_, ?_, ?_, ?_⟩
      · rw [applyPrice_live, applyOi_keys]
      · intro hoi
        rw [hoi, applyPrice_live, applyOi_none]
      · intro hpr
        rw [hpr, applyPrice_none, applyOi_future]
      · intro sym hsym hmem
        have hss : sym = symbol := (Option.some.inj hsym).symm
        rw [applyPrice_live, applyOi_not_mem s symbol d.openInterest (hss ▸ hmem)]

/-- A tick for a symbol outside the registry, with no OI and no price. -/
def c8Tick : RtData :=
  { messageType := some "RealtimeResult", instrumentIdentifier := some "UNKNOWN1"
    openInterest := none, lastTradePrice := none }

theorem claim8_witness :
    (processTick initState c8Tick).live_data = initState.live_data ∧
      (processTick initState c8Tick).future_price = initState.future_price :=
  ⟨(claim8_partial_update initState c8Tick).2.1 rfl,
    (claim8_partial_update initState c8Tick).2.2.1 rfl⟩

/-! ### C10 -/

/-- C10: any tick whose symbol contains `"FUT"` and carries a last-trade price
updates the future-price scalar, even when the symbol is not a key of the live
store; no membership check guards the price update, and such a tick leaves the
live store itself unchanged. -/
theorem claim10_future_price_no_membership (s : SessionState) (d : RtData)
    (symbol : String) (p : Frac)
    (hid : d.instrumentIdentifier = some symbol) (hemp : symbol ≠ "")
    (hfut : hasFUT symbol = true) (hp : d.lastTradePrice = some p)
    (hmem : containsKey s.live_data symbol = false) :
    (processTick s d).future_price = p ∧
      (processTick s d).live_data = s.live_data := by
  simp only [processTick, hid]
  rw [if_neg hemp, applyOi_not_mem s symbol d.openInterest hmem, hp]
  rw [applyPrice]
  rw [hfut]
  exact ⟨rfl, rfl⟩

/-- A future tick whose symbol is not in the monitored set. -/
def c10Tick : RtData :=
  { messageType := some "RealtimeResult", instrumentIdentifier := some "NIFTY27JAN26FUT"
    openInterest := none, lastTradePrice := some (mkFrac 523456 10) }

theorem claim10_witness :
    (processTick initState c10Tick).future_price = mkFrac 523456 10 ∧
      (processTick initState c10Tick).live_data = initState.live_data :=
  claim10_future_price_no_membership initState c10Tick "NIFTY27JAN26FUT"
    (mkFrac 523456 10) rfl (by decide) (by decide) rfl (by decide)

/-! ### C7 -/

theorem chLt_asymm (a b : List Char) (h : chLt a b = true) : chLt b a = false := by
  induction a generalizing b with
  | nil =>
    cases b with
    | nil => simp [chLt] at h
    | cons c cs => rfl
  | cons x xs ih =>
    cases b with
    | nil => simp [chLt] at h
    | cons y ys =>
      rw [chLt] at h
      rw [chLt]
      by_cases hxy : x = y
      · rw [if_pos hxy] at h
        rw [if_pos hxy.symm]
        exact ih ys h
      · rw [if_neg hxy] at h
        rw [if_neg (fun hyx => hxy hyx.symm)]
        have hlt : x < y := of_decide_eq_true h
        exact decide_eq_false (not_lt.mpr hlt.le)

theorem insDesc_last (r : String × List (String × String))
    (l : List (String × List (String × String)))
    (h : ∀ x ∈ l, strLt x.1 r.1 = false) : insDesc r l = l ++ [r] := by
  induction l with
  | nil => rfl
  | cons x xs ih =>
    rw [insDesc, h x (List.mem_cons_self x xs)]
    rw [ih (fun y hy => h y (List.mem_cons_of_mem x hy))]
    simp

/-- On rows whose timestamps are strictly increasing in storage order, the
descending sort is exactly the reversal. -/
theorem sortDesc_of_chron (rows : List (String × List (String × String)))
    (h : rows.Pairwise (fun a b => strLt a.1 b.1 = true)) :
    sortDesc rows = rows.reverse := by
  induction rows with
  | nil => rfl
  | cons r rest ih =>
    have hp := List.pairwise_cons.mp h
    rw [sortDesc, ih hp.2]
    rw [insDesc_last r rest.reverse (fun x hx => ?_)]
    · simp
    · exact chLt_asymm _ _ (hp.1 x (List.mem_reverse.mp hx))

/-- C7: on a table whose rows were inserted in chronological order, the display
window equals the reversal truncated to `n`: it has exactly
`min n totalRowsAppended` rows, in strictly reverse-chronological insertion
order, and the stored row order is untouched (the window is computed from a
sorted copy). -/
theorem claim7_window (t : HistoryTable) (n : Nat)
    (h : t.rows.Pairwise (fun a b => strLt a.1 b.1 = true)) :
    windowRows t n = t.rows.reverse.take n ∧
      (windowRows t n).length = min n t.rows.length ∧
      (windowRows t n).Pairwise (fun a b => strLt b.1 a.1 = true) := by
  have hs : sortDesc t.rows = t.rows.reverse := sortDesc_of_chron t.rows h
  refine ⟨by rw [windowRows, hs], ?_, ?_⟩
  · rw [windowRows, hs, List.length_take, List.length_reverse]
  · rw [windowRows, hs]
    have hrev : t.rows.reverse.Pairwise (fun a b => strLt b.1 a.1 = true) :=
      List.pairwise_reverse.mpr h
    exact hrev.sublist (List.take_sublist n t.rows.reverse)

/-- A two-row table inserted in chronological order. -/
def c7Table : HistoryTable :=
  { cols := HISTORY_COLUMNS
    rows := [("10:00:00", [("59000 ce", "0.00%")]), ("10:01:00", [("59000 ce", "0.00%")])] }

theorem claim7_witness :
    windowRows c7Table 1 = c7Table.rows.reverse.take 1 ∧
      (windowRows c7Table 1).length = min 1 c7Table.rows.length :=
  ⟨(claim7_window c7Table 1 (by decide)).1, (claim7_window c7Table 1 (by decide)).2.1⟩

/-! ### C6 -/

theorem splitCommaL_no_comma (x : List Char) (hx : ',' ∉ x) : splitCommaL x = [x] := by
  induction x with
  | nil => rfl
  | cons c rest ih =>
    have hc : ¬ c = ',' := fun h => hx (h ▸ List.mem_cons_self c rest)
    have hrest : ',' ∉ rest := fun h => hx (List.mem_cons_of_mem c h)
    rw [splitCommaL]
    simp only [if_neg hc, ih hrest]
    rfl

theorem splitCommaL_append (x t : List Char) (hx : ',' ∉ x) :
    splitCommaL (x ++ ',' :: t) = x :: splitCommaL t := by
  induction x with
  | nil =>
    rw [List.nil_append, splitCommaL]
    simp
  | cons c rest ih =>
    have hc : ¬ c = ',' := fun h => hx (h ▸ List.mem_cons_self c rest)
    have hrest : ',' ∉ rest := fun h => hx (List.mem_cons_of_mem c h)
    rw [List.cons_append, splitCommaL]
    simp only [if_neg hc, ih hrest]
    rfl

theorem splitCommaL_joinCommaL (parts : List (List Char)) (hne : parts ≠ [])
    (hcf : ∀ p ∈ parts, ',' ∉ p) : splitCommaL (joinCommaL parts) = parts := by
  induction parts with
  | nil => exact absurd rfl hne
  | cons x xs ih =>
    cases xs with
    | nil => exact splitCommaL_no_comma x (hcf x (List.mem_cons_self x []))
    | cons y ys =>
      rw [joinCommaL]
      rw [splitCommaL_append x _ (hcf x (List.mem_cons_self x (y :: ys)))]
      rw [ih (by simp) (fun p hp => hcf p (List.mem_cons_of_mem x hp))]

theorem map_mk_data (l : List String) : (l.map String.data).map String.mk = l := by
  rw [List.map_map]
  exact List.map_id l

theorem commaFree_spec (s : String) (h : commaFree s = true) : ',' ∉ s.data := by
  intro hm
  have := List.all_eq_true.mp h (',' : Char) hm
  simp at this

theorem zip_self_map (l : List String) (f : String → String) :
    l.zip (l.map f) = l.map (fun a => (a, f a)) := by
  induction l with
  | nil => rfl
  | cons x xs ih => simp [ih]

/-- Looking up `c` in the column-ordered sparse row rebuilt by the restore. -/
theorem rowLookup_rebuilt (cols : List String) (g : String → String) (c v : String)
    (hc : c ∈ cols) (hv : g c = v) (hne : v ≠ "") :
    rowLookup ((cols.map (fun x => (x, g x))).filter (fun cv => decide (cv.2 ≠ ""))) c
      = some v := by
  induction cols with
  | nil => cases hc
  | cons a as ih =>
    rw [List.map_cons, List.filter_cons]
    by_cases hac : a = c
    · subst hac
      rw [if_pos (by simpa using hv.symm ▸ hne)]
      rw [rowLookup, List.find?_cons_of_pos _ (by simp)]
      simpa using hv
    · have hcas : c ∈ as := by
        rcases List.mem_cons.mp hc with h | h
        · exact absurd h.symm hac
        · exact h
      by_cases hga : g a = ""
      · rw [if_neg (by simpa using hga)]
        exact ih hcas
      · rw [if_pos (by simpa using hga)]
        rw [rowLookup, List.find?_cons_of_neg _ (by simpa using hac)]
        exact ih hcas

/-- Shorthand: the sparse cells of row `i`. -/
def cellsAt (rows : List (String × List (String × String))) (i : Nat) :
    List (String × String) :=
  ((rows[i]?).map (fun r => r.2)).getD []

/-- The rendered fields of one row are comma-free. -/
theorem field_comma_free (r : String × List (String × String))
    (hcells : ∀ cv ∈ r.2, commaFree cv.2 = true) (c : String) :
    ',' ∉ ((rowLookup r.2 c).getD "").data := by
  cases hrl : rowLookup r.2 c with
  | none => simp
  | some v =>
    rw [Option.getD_some]
    rw [rowLookup] at hrl
    obtain ⟨p, hfind, hpv⟩ := Option.map_eq_some'.mp hrl
    have hmem := List.mem_of_find?_eq_some hfind
    exact commaFree_spec _ (hpv ▸ hcells p hmem)

/-- One row round-trips through a CSV line. -/
theorem split_join_row (cols : List String) (r : String × List (String × String))
    (hts : ',' ∉ r.1.data)
    (hcells : ∀ cv ∈ r.2, commaFree cv.2 = true) :
    splitCommaL (joinCommaL (r.1.data :: cols.map (fun c => ((rowLookup r.2 c).getD "").data)))
      = r.1.data :: cols.map (fun c => ((rowLookup r.2 c).getD "").data) := by
  apply splitCommaL_joinCommaL
  · simp
  · intro p hp
    rcases List.mem_cons.mp hp with h | h
    · exact h ▸ hts
    · obtain ⟨c, _, hpc⟩ := List.mem_map.mp h
      exact hpc ▸ field_comma_free r hcells c

/-- Parsing a rendered row line recovers the timestamp and the populated cells
in column order. -/
theorem parseLine_render (cols : List String) (r : String × List (String × String))
    (hts : ',' ∉ r.1.data)
    (hcells : ∀ cv ∈ r.2, commaFree cv.2 = true) :
    parseLine cols (renderRow cols r)
      = (r.1, (cols.map (fun c => (c, (rowLookup r.2 c).getD ""))).filter
          (fun cv => decide (cv.2 ≠ ""))) := by
  rw [parseLine, renderRow, split_join_row cols r hts hcells]
  simp only [List.headD_cons, List.tail_cons]
  congr 1
  rw [List.map_map]
  have hmaps : (cols.map (String.mk ∘ fun c => ((rowLookup r.2 c).getD "").data))
      = cols.map (fun c => (rowLookup r.2 c).getD "") :=
    List.map_congr_left (fun c _ => rfl)
  rw [hmaps, zip_self_map]

/-- C6: persisting a well-formed history table to its day file and restoring it
reproduces the identical column set, the identical row timestamps, and for
every populated cell the identical percentage string. -/
theorem claim6_roundtrip (t : HistoryTable) (hwf : tableWF t = true) :
    (restoreTable (persistTable t)).cols = t.cols ∧
      (restoreTable (persistTable t)).rows.map (fun r => r.1)
        = t.rows.map (fun r => r.1) ∧
      (∀ i c v, i < t.rows.length →
        rowLookup (cellsAt t.rows i) c = some v →
        rowLookup (cellsAt (restoreTable (persistTable t)).rows i) c = some v) := by
  rw [tableWF, Bool.and_eq_true] at hwf
  obtain ⟨hwfc, hwfr⟩ := hwf
  have hcols_cf : ∀ c ∈ t.cols, ',' ∉ c.data := fun c hc =>
    commaFree_spec c (List.all_eq_true.mp hwfc c hc)
  have hrow : ∀ r ∈ t.rows, commaFree r.1 = true ∧
      ∀ cv ∈ r.2, commaFree cv.1 = true ∧ commaFree cv.2 = true ∧
        cv.2 ≠ "" ∧ cv.1 ∈ t.cols := by
    intro r hr
    have h1 := List.all_eq_true.mp hwfr r hr
    rw [Bool.and_eq_true] at h1
    refine ⟨h1.1, ?_⟩
    intro cv hcv
    have h2 := List.all_eq_true.mp h1.2 cv hcv
    simp only [Bool.and_eq_true, decide_eq_true_eq] at h2
    exact ⟨h2.1.1.1, h2.1.1.2, h2.1.2, h2.2⟩
  have hhd : splitCommaL (joinCommaL ([] :: t.cols.map String.data))
      = [] :: t.cols.map String.data := by
    apply splitCommaL_joinCommaL
    · simp
    · intro p hp
      rcases List.mem_cons.mp hp with h | h
      · subst h; simp
      · obtain ⟨c, hc, hpc⟩ := List.mem_map.mp h
        exact hpc ▸ hcols_cf c hc
  have hres : restoreTable (persistTable t)
      = { cols := t.cols
          rows := t.rows.map (fun r =>
            (r.1, (t.cols.map (fun c => (c, (rowLookup r.2 c).getD ""))).filter
              (fun cv => decide (cv.2 ≠ "")))) } := by
    rw [restoreTable, persistTable]
    simp only [List.headD_cons, List.tail_cons]
    rw [hhd, List.tail_cons, map_mk_data]
    rw [List.map_map]
    congr 1
    apply List.map_congr_left
    intro r hr
    have h1 := (hrow r hr).1
    have h2 : ∀ cv ∈ r.2, commaFree cv.2 = true := fun cv hcv => ((hrow r hr).2 cv hcv).2.1
    exact parseLine_render t.cols r (commaFree_spec _ h1) h2
  refine ⟨by rw [hres], ?_, ?_⟩
  · rw [hres]
    simp only [List.map_map]
    exact List.map_congr_left (fun r _ => rfl)
  · intro i c v hi hl
    have hget : t.rows[i]? = some t.rows[i] := List.getElem?_eq_getElem hi
    have hcell : cellsAt t.rows i = t.rows[i].2 := by
      rw [cellsAt, hget]; rfl
    rw [hcell] at hl
    set r := t.rows[i] with hr
    have hrmem : r ∈ t.rows := List.getElem_mem hi
    rw [rowLookup] at hl
    obtain ⟨p, hfind, hpv⟩ := Option.map_eq_some'.mp hl
    have hpmem := List.mem_of_find?_eq_some hfind
    have hpc : p.1 = c := by
      have := List.find?_some hfind
      simpa using this
    have hwfcell := (hrow r hrmem).2 p hpmem
    have hcin : c ∈ t.cols := hpc ▸ hwfcell.2.2.2
    have hvne : v ≠ "" := hpv ▸ hwfcell.2.2.1
    have hgc : (rowLookup r.2 c).getD "" = v := by
      rw [rowLookup, hfind, Option.map_some', Option.getD_some, hpv]
    have hres2 : cellsAt (restoreTable (persistTable t)).rows i
        = (t.cols.map (fun x => (x, (rowLookup r.2 x).getD ""))).filter
            (fun cv => decide (cv.2 ≠ "")) := by
      rw [hres, cellsAt]
      rw [List.getElem?_map, hget]
      rfl
    rw [hres2]
    exact rowLookup_rebuilt t.cols (fun x => (rowLookup r.2 x).getD "") c v hcin hgc hvne

/-- A one-row table for the round-trip witness. -/
def c6Table : HistoryTable :=
  { cols := HISTORY_COLUMNS
    rows := [("10:01:00", [("59000 ce", "0.00%"), ("60100 ce", "20.00%")])] }

theorem claim6_witness :
    rowLookup (cellsAt (restoreTable (persistTable c6Table)).rows 0) "60100 ce"
      = some "20.00%" :=
  (claim6_roundtrip c6Table (by decide)).2.2 0 "60100 ce" "20.00%" (by decide) (by decide)
